import Mathlib

/-!
# Verification of the attendance kiosk's matching and store logic

Shallow embedding of the identity-matching pipeline and the attendance
store of the attendance-kiosk repository.

Conventions of the embedding:
* `Float32Array` feature vectors are modelled as `List ℚ` (exact values);
  JavaScript numbers used only for comparisons stay in `ℚ`, while the
  cosine-similarity computation, which calls `Math.sqrt`, is modelled
  over `ℝ` with `Real.sqrt`.
* `Date` values are modelled as `Int` (milliseconds since the epoch).
* External collaborators (the face-api euclidean distance, the two
  extractor models, the canvas pixel comparison) are parameters of the
  functions or of the pipeline environment.
* Fallible steps return `Option`/`Except`; a caught exception is an
  `Except.error` absorbed by the caller, mirroring try/catch.
-/

/-! ## Data model (types/attendance.ts) -/

/-- `type` field of an attendance record: `'ENTRY' | 'EXIT'`. -/
inductive EntryType where
  | ENTRY
  | EXIT
deriving DecidableEq

/-- `currentStatus` field of a profile: `'IN' | 'OUT'`. -/
inductive PresenceStatus where
  | IN
  | OUT
deriving DecidableEq

/-- `AttendanceRecord` from types/attendance.ts: id, name, email, image
(opaque base64 string), timestamp (`Date`, modelled as epoch ms),
type, and the two optional feature vectors. -/
structure AttendanceRecord where
  id : String
  name : String
  email : String
  image : String
  timestamp : Int
  type : EntryType
  imageFeatures : Option (List ℚ)
  faceDescriptor : Option (List ℚ)
deriving DecidableEq

/-- `AttendeeProfile` from types/attendance.ts. -/
structure AttendeeProfile where
  id : String
  name : String
  email : String
  lastImage : String
  imageFeatures : Option (List ℚ)
  faceDescriptor : Option (List ℚ)
  currentStatus : PresenceStatus
  lastEntry : Option Int
  lastExit : Option Int
deriving DecidableEq

/-- Result of the matchers (`FaceDetectionResult` / `ImageMatchResult`),
generic in the numeric type of the confidence. -/
structure MatchResult (α : Type) where
  isMatch : Bool
  confidence : α
  attendeeId : Option String
deriving DecidableEq

/-! ## Vector similarity (useFaceDetection.ts / useImageMatching.ts) -/

/-- `compareFaces` (useFaceDetection.ts): confidence
`Math.max(0, 1 - distance)` where `distance` is
`faceapi.euclideanDistance`, an external library routine passed in as
the parameter `dist`. -/
def compareFaces (dist : List ℚ → List ℚ → ℚ) (d1 d2 : List ℚ) : ℚ :=
  max 0 (1 - dist d1 d2)

/-- Dot product of the `compareImages` loop: `dotProduct += f1[i] * f2[i]`. -/
def dotProd : List ℚ → List ℚ → ℚ
  | a :: as, b :: bs => a * b + dotProd as bs
  | _, _ => 0

/-- Squared norm of the `compareImages` loop: `norm += f[i] * f[i]`. -/
def normSq (l : List ℚ) : ℚ :=
  (l.map (fun x => x * x)).sum

/-- Cosine similarity of `compareImages` (useImageMatching.ts):
`dotProduct / (Math.sqrt(norm1) * Math.sqrt(norm2))`.  Total version:
it uses Lean's `x / 0 = 0` convention for a zero-norm denominator,
where the source computes `0/0 = NaN`; the NaN outcome is modelled
explicitly by `compareImagesNaN` below. -/
noncomputable def cosineSimilarity (a b : List ℚ) : ℝ :=
  (dotProd a b : ℝ) / (Real.sqrt (normSq a) * Real.sqrt (normSq b))

/-- `compareImages` (useImageMatching.ts): returns 0 when either vector
is absent or the lengths differ, otherwise
`Math.max(0, (similarity + 1) / 2)`.  Total version used by the
matcher scan: on equal-length zero-norm inputs, where the source
yields NaN, it yields 1/2.  A JavaScript NaN confidence never beats
the scan's running best and never exceeds a threshold, and the 1/2
stand-in also never exceeds either matching threshold, so the scan's
match decisions agree with the source; `compareImagesNaN` below
models the NaN outcome itself. -/
noncomputable def compareImages : Option (List ℚ) → Option (List ℚ) → ℝ
  | some a, some b =>
      if a.length = b.length then max 0 ((cosineSimilarity a b + 1) / 2) else 0
  | _, _ => 0

/-- `compareImages` with JavaScript NaN made explicit (`none` = NaN):
when the lengths agree but either vector has zero norm, the source
computes `similarity = 0 / (Math.sqrt(0) * Math.sqrt(norm)) = 0/0 =
NaN` (a zero-norm vector is all zeros, so the dot product is exactly
0), and `Math.max(0, (NaN + 1) / 2)` is NaN, which the function
returns; every other case returns the real number of
`compareImages`. -/
noncomputable def compareImagesNaN :
    Option (List ℚ) → Option (List ℚ) → Option ℝ
  | some a, some b =>
      if a.length = b.length then
        if normSq a = 0 ∨ normSq b = 0 then none
        else some (max 0 ((cosineSimilarity a b + 1) / 2))
      else some 0
  | _, _ => some 0

/-! ## The matcher scan (findMatchingFace / findMatchingImage) -/

/-- The linear scan shared by both matchers: start from
`bestMatch = { id: '', confidence: 0 }` and replace it whenever the
pairwise confidence strictly exceeds the best seen so far. -/
def scanBest {α : Type} [LinearOrderedField α]
    (conf : List ℚ → List ℚ → α) (q : List ℚ)
    (catalog : List (String × List ℚ)) : String × α :=
  catalog.foldl
    (fun best e => if best.2 < conf q e.2 then (e.1, conf q e.2) else best)
    ("", 0)

/-- Maximum pairwise confidence over a catalog (0 when empty). -/
def maxConfidence {α : Type} [LinearOrderedField α]
    (conf : List ℚ → List ℚ → α) (q : List ℚ)
    (catalog : List (String × List ℚ)) : α :=
  (catalog.map (fun e => conf q e.2)).foldl max 0

/-- `findMatchingFace` (useFaceDetection.ts): no match when the query
descriptor is absent or the models are not loaded; otherwise scan and
compare the best confidence against the threshold 0.6, strictly. -/
def findMatchingFace (isLoaded : Bool) (dist : List ℚ → List ℚ → ℚ)
    (query : Option (List ℚ)) (catalog : List (String × List ℚ)) :
    MatchResult ℚ :=
  match query with
  | none => ⟨false, 0, none⟩
  | some d =>
      if isLoaded = false then ⟨false, 0, none⟩
      else
        let best := scanBest (compareFaces dist) d catalog
        ⟨decide ((6 : ℚ)/10 < best.2), best.2,
          if (6 : ℚ)/10 < best.2 then some best.1 else none⟩

/-- `findMatchingImage` (useImageMatching.ts): same scan with
`compareImages` as confidence and threshold 0.75, strictly. -/
noncomputable def findMatchingImage (isLoaded : Bool)
    (query : Option (List ℚ)) (catalog : List (String × List ℚ)) :
    MatchResult ℝ :=
  match query with
  | none => ⟨false, 0, none⟩
  | some f =>
      if isLoaded = false then ⟨false, 0, none⟩
      else
        let best := scanBest (fun a b => compareImages (some a) (some b)) f catalog
        ⟨decide ((3 : ℝ)/4 < best.2), best.2,
          if (3 : ℝ)/4 < best.2 then some best.1 else none⟩

/-! ## Attendance store (useAttendanceStore.ts) -/

/-- The argument of `addRecord`: `Omit<AttendanceRecord, 'id' | 'timestamp'>`. -/
structure RecordInput where
  name : String
  email : String
  image : String
  type : EntryType
  imageFeatures : Option (List ℚ)
  faceDescriptor : Option (List ℚ)
deriving DecidableEq

/-- `addRecord` (useAttendanceStore.ts): build the complete record from
the input plus a fresh id (`crypto.randomUUID()`, supplied by the
caller of the model) and the current timestamp, prepend it, and return
it together with the updated collection. -/
def addRecord (input : RecordInput) (freshId : String) (now : Int)
    (records : List AttendanceRecord) :
    AttendanceRecord × List AttendanceRecord :=
  let r : AttendanceRecord :=
    ⟨freshId, input.name, input.email, input.image, now, input.type,
      input.imageFeatures, input.faceDescriptor⟩
  (r, r :: records)

/-- The argument of `updateProfile`: `Partial<AttendeeProfile> & { id }`.
A field that is `none` is absent from the partial object. -/
structure ProfilePatch where
  id : String
  name : Option String
  email : Option String
  lastImage : Option String
  imageFeatures : Option (List ℚ)
  faceDescriptor : Option (List ℚ)
  currentStatus : Option PresenceStatus
  lastEntry : Option Int
  lastExit : Option Int
deriving DecidableEq

/-- The shallow merge `{ ...profile, ...profileData }`: supplied fields
of the patch win, absent fields keep the existing profile's values. -/
def applyPatch (p : AttendeeProfile) (patch : ProfilePatch) : AttendeeProfile :=
  { id := patch.id
    name := patch.name.getD p.name
    email := patch.email.getD p.email
    lastImage := patch.lastImage.getD p.lastImage
    imageFeatures := patch.imageFeatures.or p.imageFeatures
    faceDescriptor := patch.faceDescriptor.or p.faceDescriptor
    currentStatus := patch.currentStatus.getD p.currentStatus
    lastEntry := patch.lastEntry.or p.lastEntry
    lastExit := patch.lastExit.or p.lastExit }

/-- The creation branch of `updateProfile`: defaults
`name='', email='', lastImage='', currentStatus='OUT'` overlaid with
the supplied fields. -/
def newProfileOf (patch : ProfilePatch) : AttendeeProfile :=
  { id := patch.id
    name := patch.name.getD ""
    email := patch.email.getD ""
    lastImage := patch.lastImage.getD ""
    imageFeatures := patch.imageFeatures
    faceDescriptor := patch.faceDescriptor
    currentStatus := patch.currentStatus.getD PresenceStatus.OUT
    lastEntry := patch.lastEntry
    lastExit := patch.lastExit }

/-- `findIndex` followed by a map that replaces exactly that index,
realized as replacement of the first profile whose id matches. -/
def replaceFirst (patch : ProfilePatch) :
    List AttendeeProfile → List AttendeeProfile
  | [] => []
  | p :: ps =>
      if p.id = patch.id then applyPatch p patch :: ps
      else p :: replaceFirst patch ps

/-- `updateProfile` (useAttendanceStore.ts): merge over the first
profile with the patch's id when one exists, otherwise append a new
profile built from the defaults. -/
def updateProfile (profiles : List AttendeeProfile) (patch : ProfilePatch) :
    List AttendeeProfile :=
  if profiles.any (fun p => p.id = patch.id) then replaceFirst patch profiles
  else profiles ++ [newProfileOf patch]

/-- `getProfile` (useAttendanceStore.ts): `profiles.find(p => p.id === id)`. -/
def getProfile (profiles : List AttendeeProfile) (id : String) :
    Option AttendeeProfile :=
  profiles.find? (fun p => p.id = id)

/-- `getRecentRecords` (useAttendanceStore.ts): `records.slice(0, limit)`. -/
def getRecentRecords (limit : Nat) (records : List AttendanceRecord) :
    List AttendanceRecord :=
  records.take limit

/-- `getImageFeatures` (useAttendanceStore.ts): the catalog of
`{id, features}` for every profile whose image features are present. -/
def getImageFeatures (profiles : List AttendeeProfile) :
    List (String × List ℚ) :=
  (profiles.filter (fun p => p.imageFeatures.isSome)).map
    (fun p => (p.id, p.imageFeatures.getD []))

/-- The face-descriptor catalog built inline by the pipeline:
`profiles.filter(p => p.faceDescriptor).map(p => ({id, descriptor}))`. -/
def faceCatalog (profiles : List AttendeeProfile) :
    List (String × List ℚ) :=
  (profiles.filter (fun p => p.faceDescriptor.isSome)).map
    (fun p => (p.id, p.faceDescriptor.getD []))

/-- Modelled from the spec: the store's `getTodayEntryRecord` operation
is absent from the available sources (only its caller in the pipeline
component appears), so it is modelled from the spec sentence: return
the most recent record for the given attendee with `type == ENTRY`
whose timestamp falls on the current calendar day.  The association of
a record to an attendee id (`attendee`) and the local-time calendar-day
function (`dayOf`) are external parameters of the model; the record
list is newest-first, so `find?` yields the most recent match. -/
def getTodayEntryRecord (attendee : AttendanceRecord → String)
    (dayOf : Int → Int) (today : Int)
    (records : List AttendanceRecord) (attendeeId : String) :
    Option AttendanceRecord :=
  records.find? (fun r =>
    attendee r = attendeeId ∧ r.type = EntryType.ENTRY ∧
      dayOf r.timestamp = dayOf today)

/-- Fold inserting a sequence of `(input, freshId, timestamp)` triples
through `addRecord`, oldest first. -/
def insertAll (inputs : List (RecordInput × String × Int))
    (records : List AttendanceRecord) : List AttendanceRecord :=
  inputs.foldl (fun recs t => (addRecord t.1 t.2.1 t.2.2 recs).2) records

/-- The complete record `addRecord` builds from one insertion triple. -/
def recordOf (t : RecordInput × String × Int) : AttendanceRecord :=
  ⟨t.2.1, t.1.name, t.1.email, t.1.image, t.2.2, t.1.type,
    t.1.imageFeatures, t.1.faceDescriptor⟩

/-! ## Serialization (useAttendanceStore.ts, load / save)

`JSON.stringify` turns a `Date` into its ISO string and the load maps
it back with `new Date(...)`; the pair is modelled by an explicit
injective decimal encoding of the epoch milliseconds together with its
parser.  `Array.from` / `new Float32Array(...)` are the identity on the
value lists. -/

/-- Decimal digits of a natural number, least significant first. -/
def natToRevDigits (n : Nat) : List Nat :=
  if h : n = 0 then [] else (n % 10) :: natToRevDigits (n / 10)
decreasing_by
  exact Nat.div_lt_self (Nat.pos_of_ne_zero h) (by norm_num)

/-- Value of a little-endian digit list. -/
def valOfRevDigits : List Nat → Nat
  | [] => 0
  | d :: ds => d + 10 * valOfRevDigits ds

/-- The character of one decimal digit. -/
def digitChar (d : Nat) : Char :=
  Char.ofNat (48 + d)

/-- Numeric value of one decimal digit character. -/
def charVal (c : Char) : Nat :=
  c.toNat - 48

/-- Decimal character representation of a natural number. -/
def natToChars (n : Nat) : List Char :=
  if n = 0 then ['0'] else (natToRevDigits n).reverse.map digitChar

/-- Parse a decimal character list, most significant digit first. -/
def parseNatChars (cs : List Char) : Nat :=
  cs.foldl (fun a c => 10 * a + charVal c) 0

/-- The ISO-string encoding of a `Date` (epoch milliseconds), modelled
as sign plus decimal digits: an injective encoding with an explicit
inverse, standing in for `Date.prototype.toISOString`. -/
def isoOfDate (t : Int) : String :=
  if t < 0 then String.mk ('-' :: natToChars t.natAbs)
  else String.mk (natToChars t.natAbs)

/-- The inverse `new Date(isoString)`, recovering the epoch
milliseconds from the encoding of `isoOfDate`. -/
def dateOfIso (s : String) : Int :=
  match s.data with
  | [] => 0
  | c :: cs =>
      if c = '-' then -(parseNatChars cs : Int)
      else (parseNatChars (c :: cs) : Int)

/-- JSON-level shape of one record in the `attendance_records` blob:
the timestamp is a string, vectors are plain numeric arrays. -/
structure StoredRecord where
  id : String
  name : String
  email : String
  image : String
  timestamp : String
  type : EntryType
  imageFeatures : Option (List ℚ)
  faceDescriptor : Option (List ℚ)
deriving DecidableEq

/-- JSON-level shape of one profile in the `attendee_profiles` blob. -/
structure StoredProfile where
  id : String
  name : String
  email : String
  lastImage : String
  imageFeatures : Option (List ℚ)
  faceDescriptor : Option (List ℚ)
  currentStatus : PresenceStatus
  lastEntry : Option String
  lastExit : Option String
deriving DecidableEq

/-- `saveRecords` serialization of one record: vectors become plain
arrays (identity on the values), `JSON.stringify` turns the timestamp
into its ISO string. -/
def encodeRecord (r : AttendanceRecord) : StoredRecord :=
  ⟨r.id, r.name, r.email, r.image, isoOfDate r.timestamp, r.type,
    r.imageFeatures, r.faceDescriptor⟩

/-- The load mapping of one parsed record: `new Date(timestamp)` and
`new Float32Array(...)` on each present vector. -/
def decodeRecord (s : StoredRecord) : AttendanceRecord :=
  ⟨s.id, s.name, s.email, s.image, dateOfIso s.timestamp, s.type,
    s.imageFeatures, s.faceDescriptor⟩

/-- `saveProfiles` serialization of one profile. -/
def encodeProfile (p : AttendeeProfile) : StoredProfile :=
  ⟨p.id, p.name, p.email, p.lastImage, p.imageFeatures, p.faceDescriptor,
    p.currentStatus, p.lastEntry.map isoOfDate, p.lastExit.map isoOfDate⟩

/-- The load mapping of one parsed profile. -/
def decodeProfile (s : StoredProfile) : AttendeeProfile :=
  ⟨s.id, s.name, s.email, s.lastImage, s.imageFeatures, s.faceDescriptor,
    s.currentStatus, s.lastEntry.map dateOfIso, s.lastExit.map dateOfIso⟩

/-- The store-initialization effect (useAttendanceStore.ts, the mount
`useEffect`): each blob is either missing (`none`), unparseable
(`some (.error ())`, a thrown `JSON.parse`/shape error), or a parsed
list.  Both collections start empty; the records blob is processed
first, and a thrown error lands in the catch block, leaving whatever
was set so far.  Returns `(records, profiles)`. -/
def initStore (recBlob : Option (Except Unit (List StoredRecord)))
    (profBlob : Option (Except Unit (List StoredProfile))) :
    List AttendanceRecord × List AttendeeProfile :=
  match recBlob with
  | some (.error _) => ([], [])
  | none =>
      match profBlob with
      | some (.error _) => ([], [])
      | none => ([], [])
      | some (.ok ps) => ([], ps.map decodeProfile)
  | some (.ok rs) =>
      match profBlob with
      | some (.error _) => (rs.map decodeRecord, [])
      | none => (rs.map decodeRecord, [])
      | some (.ok ps) => (rs.map decodeRecord, ps.map decodeProfile)

/-! ## Identity-resolution pipeline (processAttendance, the tracker page)

One capture event.  External collaborators and per-run inputs live in
an environment: the two loaded flags, the extraction results that the
extractors would return when invoked, the two hook-provided matchers,
the canvas pixel comparison `simpleImageCompare`, the
`getTodayEntryRecord` parameters, the two fresh UUIDs the run draws
(`crypto.randomUUID()`), the current time, and the submitted form
fields. -/

structure PipelineEnv where
  faceDetectionLoaded : Bool
  imageMatchingLoaded : Bool
  fdResult : Option (List ℚ)
  featResult : Option (List ℚ)
  matchFace : List ℚ → List (String × List ℚ) → MatchResult ℚ
  matchImage : List ℚ → List (String × List ℚ) → MatchResult ℚ
  simpleCompare : String → String → ℚ
  attendee : AttendanceRecord → String
  dayOf : Int → Int
  today : Int
  now : Int
  newUserId : String
  recordId : String
  userName : String
  userEmail : String

/-- The `matchResult` initializer `{ isMatch: false, confidence: 0,
attendeeId: undefined }`. -/
def noMatch : MatchResult ℚ :=
  ⟨false, 0, none⟩

/-- The face descriptor available to the run: `detectFaceFromImage` is
only invoked when face detection is loaded. -/
def pipelineFd (env : PipelineEnv) : Option (List ℚ) :=
  if env.faceDetectionLoaded then env.fdResult else none

/-- Stage 1, face matching: when a descriptor was detected and at least
one profile has a stored descriptor, run `findMatchingFace`; keep its
result only when it is a match. -/
def stageFace (env : PipelineEnv) (profiles : List AttendeeProfile) :
    MatchResult ℚ :=
  match pipelineFd env with
  | none => noMatch
  | some d =>
      let cat := faceCatalog profiles
      if 0 < cat.length then
        let r := env.matchFace d cat
        if r.isMatch then r else noMatch
      else noMatch

/-- The image features available to the run: `extractImageFeatures` is
only invoked when stage 1 found no match and image matching is loaded. -/
def stageFeats (env : PipelineEnv) (profiles : List AttendeeProfile) :
    Option (List ℚ) :=
  if (stageFace env profiles).isMatch = false ∧ env.imageMatchingLoaded then
    env.featResult
  else none

/-- Stage 2, image-feature matching against the store's catalog; keeps
stage 1's result when it already matched or when this stage fails. -/
def stageImage (env : PipelineEnv) (profiles : List AttendeeProfile) :
    MatchResult ℚ :=
  let m1 := stageFace env profiles
  if m1.isMatch then m1
  else
    match stageFeats env profiles with
    | none => m1
    | some f =>
        let r := env.matchImage f (getImageFeatures profiles)
        if r.isMatch then r else m1

/-- Stage 3, the simple pixel-comparison fallback: best
`simpleImageCompare` over every profile with a non-empty `lastImage`,
declared a match only above the 0.8 threshold (`mkRat 8 10`),
strictly. -/
def stageSimple (env : PipelineEnv) (img : String)
    (profiles : List AttendeeProfile) : MatchResult ℚ :=
  let m2 := stageImage env profiles
  if m2.isMatch then m2
  else
    if 0 < profiles.length then
      let best := profiles.foldl
        (fun b p =>
          if p.lastImage ≠ "" then
            if b.2 < env.simpleCompare img p.lastImage then
              (p.id, env.simpleCompare img p.lastImage)
            else b
          else b)
        ("", 0)
      if mkRat 8 10 < best.2 then ⟨true, best.2, some best.1⟩ else m2
    else m2

/-- How the run resolved the identity of the capture. -/
inductive Identity where
  /-- vector or pixel match with an existing profile -/
  | matched (p : AttendeeProfile)
  /-- a match whose attendee id has no profile — `getProfile(userId)!`
  would be `undefined` and the dereference would throw -/
  | missing (uid : String)
  /-- email fallback hit an existing profile -/
  | byEmail (p : AttendeeProfile)
  /-- new enrollment -/
  | fresh
deriving DecidableEq

/-- `toLowerCase()`: lowercase every character (character-wise map,
equivalent to `String.toLower`, kept structural so that the model
evaluates). -/
def lowerStr (s : String) : String :=
  String.mk (s.data.map Char.toLower)

/-- Identity resolution: a match with a truthy (non-empty) attendee id
takes the known-user branch; otherwise the email fallback compares
lower-cased emails; otherwise the run enrolls a new user. -/
def resolveIdentity (env : PipelineEnv) (img : String)
    (profiles : List AttendeeProfile) : Identity :=
  let m := stageSimple env img profiles
  if m.isMatch = true ∧ m.attendeeId.getD "" ≠ "" then
    match getProfile profiles (m.attendeeId.getD "") with
    | some p => .matched p
    | none => .missing (m.attendeeId.getD "")
  else
    match profiles.find? (fun p => lowerStr p.email = lowerStr env.userEmail) with
    | some p => .byEmail p
    | none => .fresh

/-- Outcome of one run. -/
inductive RunOutcome where
  /-- record written, profile updated -/
  | accepted (record : AttendanceRecord)
  /-- same-day exit check failed: "Check-out Failed", no mutation -/
  | rejected
  /-- unhandled fault (`getProfile(userId)!` on a missing profile) -/
  | crashed
deriving DecidableEq

/-- A finished run: outcome plus the store state it leaves behind. -/
structure RunResult where
  outcome : RunOutcome
  records : List AttendanceRecord
  profiles : List AttendeeProfile
deriving DecidableEq

/-- The `profileData` built for a known user `p`: last image and status
updated, the matching stamp set, vectors overwritten only when freshly
extracted (`imageFeatures || existingProfile.imageFeatures`). -/
def knownProfileData (env : PipelineEnv) (img : String)
    (profiles : List AttendeeProfile) (p : AttendeeProfile)
    (et : EntryType) : AttendeeProfile :=
  { id := p.id
    name := p.name
    email := p.email
    lastImage := img
    imageFeatures := (stageFeats env profiles).or p.imageFeatures
    faceDescriptor := (pipelineFd env).or p.faceDescriptor
    currentStatus := if et = EntryType.ENTRY then .IN else .OUT
    lastEntry := if et = EntryType.ENTRY then some env.now else p.lastEntry
    lastExit := if et = EntryType.EXIT then some env.now else p.lastExit }

/-- The `profileData` of a new enrollment: fresh id, form fields (with
the `|| 'Unknown User'` / `|| 'unknown@example.com'` fallbacks on empty
strings), status `IN`, `lastEntry` now. -/
def freshProfileData (env : PipelineEnv) (img : String)
    (profiles : List AttendeeProfile) : AttendeeProfile :=
  { id := env.newUserId
    name := if env.userName = "" then "Unknown User" else env.userName
    email := if env.userEmail = "" then "unknown@example.com" else env.userEmail
    lastImage := img
    imageFeatures := stageFeats env profiles
    faceDescriptor := pipelineFd env
    currentStatus := .IN
    lastEntry := some env.now
    lastExit := none }

/-- The patch `updateProfile(profileData)` receives: every field of the
complete `profileData` object is supplied. -/
def patchOfProfile (pd : AttendeeProfile) : ProfilePatch :=
  ⟨pd.id, some pd.name, some pd.email, some pd.lastImage,
    pd.imageFeatures, pd.faceDescriptor, some pd.currentStatus,
    pd.lastEntry, pd.lastExit⟩

/-- The common commit tail of every accepted run: `addRecord` with the
vectors extracted this run, then `updateProfile(profileData)`. -/
def commitRun (env : PipelineEnv) (img : String)
    (records : List AttendanceRecord) (profiles : List AttendeeProfile)
    (pd : AttendeeProfile) (et : EntryType) : RunResult :=
  let pr := addRecord
    ⟨pd.name, pd.email, img, et, stageFeats env profiles, pipelineFd env⟩
    env.recordId env.now records
  ⟨.accepted pr.1, pr.2, updateProfile profiles (patchOfProfile pd)⟩

/-- The known-user branch: toggle the transition from `currentStatus`,
and when it is an EXIT with an ENTRY recorded today, gate it on the
pixel confidence against that entry's image (threshold 0.7, written
`mkRat 7 10`: strictly below rejects with no mutation). -/
def processKnown (env : PipelineEnv) (img : String)
    (records : List AttendanceRecord) (profiles : List AttendeeProfile)
    (p : AttendeeProfile) : RunResult :=
  let et := if p.currentStatus = PresenceStatus.OUT
    then EntryType.ENTRY else EntryType.EXIT
  if et = EntryType.EXIT then
    match getTodayEntryRecord env.attendee env.dayOf env.today records p.id with
    | some e =>
        if env.simpleCompare img e.image < mkRat 7 10 then
          ⟨.rejected, records, profiles⟩
        else commitRun env img records profiles
          (knownProfileData env img profiles p et) et
    | none => commitRun env img records profiles
        (knownProfileData env img profiles p et) et
  else commitRun env img records profiles
    (knownProfileData env img profiles p et) et

/-- One full pipeline run (`processAttendance`): resolve the identity,
apply the same-day exit gate for known users, then commit. -/
def processAttendance (env : PipelineEnv) (img : String)
    (records : List AttendanceRecord) (profiles : List AttendeeProfile) :
    RunResult :=
  match resolveIdentity env img profiles with
  | .matched p => processKnown env img records profiles p
  | .byEmail p => processKnown env img records profiles p
  | .missing _ => ⟨.crashed, records, profiles⟩
  | .fresh => commitRun env img records profiles
      (freshProfileData env img profiles) EntryType.ENTRY

/-! ## Concrete scenarios used by the claim witnesses -/

/-- A concrete pipeline environment: no extractor loaded, hook matchers
that never match, pixel comparison constantly 1/2, association of
records to attendees by email, calendar day = hundreds of the epoch
clock. -/
def gateEnv : PipelineEnv :=
  ⟨false, false, none, none, fun _ _ => noMatch, fun _ _ => noMatch,
    fun _ _ => mkRat 1 2, fun r => r.email, fun t => t / 100, 45, 40,
    "u0", "u1", "Ann", "ann@x"⟩

/-- A profile that is currently IN, reachable by the email fallback. -/
def gateProfile : AttendeeProfile :=
  ⟨"ann@x", "Ann", "ann@x", "i0", none, none, PresenceStatus.IN,
    some 20, none⟩

/-- Today's ENTRY record of that profile. -/
def gateEntry : AttendanceRecord :=
  ⟨"r2", "Ann", "ann@x", "i2", 20, EntryType.ENTRY, none, none⟩

/-! ## Helper lemmas: decimal encoding -/

theorem valOfRevDigits_natToRevDigits (n : Nat) :
    valOfRevDigits (natToRevDigits n) = n := by
  induction n using Nat.strong_induction_on with
  | _ n ih =>
    rw [natToRevDigits]
    split
    · simpa [valOfRevDigits] using (by omega : n = 0 → 0 = n) (by assumption)
    · rename_i h
      rw [valOfRevDigits,
        ih (n / 10) (Nat.div_lt_self (Nat.pos_of_ne_zero h) (by norm_num))]
      omega

theorem mem_natToRevDigits_lt (n : Nat) :
    ∀ d ∈ natToRevDigits n, d < 10 := by
  induction n using Nat.strong_induction_on with
  | _ n ih =>
    rw [natToRevDigits]
    split
    · simp
    · rename_i h
      intro d hd
      rcases List.mem_cons.mp hd with h1 | h2
      · omega
      · exact ih (n / 10)
          (Nat.div_lt_self (Nat.pos_of_ne_zero h) (by norm_num)) d h2

theorem charVal_digitChar : ∀ d, d < 10 → charVal (digitChar d) = d := by
  decide

theorem digitChar_ne_dash : ∀ d, d < 10 → digitChar d ≠ '-' := by
  decide

theorem foldl_digits (l : List Nat) (h : ∀ d ∈ l, d < 10) (b : Nat) :
    (l.map digitChar).foldl (fun a c => 10 * a + charVal c) b =
      l.foldl (fun a d => 10 * a + d) b := by
  induction l generalizing b with
  | nil => rfl
  | cons d t ihl =>
    simp only [List.map_cons, List.foldl_cons]
    rw [charVal_digitChar d (h d (List.mem_cons_self d t))]
    exact ihl (fun x hx => h x (List.mem_cons_of_mem d hx)) _

theorem foldl_reverse_val (l : List Nat) (b : Nat) :
    l.reverse.foldl (fun a d => 10 * a + d) b =
      b * 10 ^ l.length + valOfRevDigits l := by
  induction l generalizing b with
  | nil => simp [valOfRevDigits]
  | cons d t ihl =>
    simp only [List.reverse_cons, List.foldl_append, List.foldl_cons,
      List.foldl_nil, valOfRevDigits, List.length_cons]
    rw [ihl]
    ring

theorem parseNatChars_natToChars (n : Nat) :
    parseNatChars (natToChars n) = n := by
  rw [natToChars]
  split
  · subst_vars; rfl
  · rw [parseNatChars, foldl_digits _ (by
      intro d hd
      exact mem_natToRevDigits_lt n d (List.mem_reverse.mp hd))]
    rw [foldl_reverse_val]
    simp [valOfRevDigits_natToRevDigits]

theorem natToChars_ne_nil (n : Nat) : natToChars n ≠ [] := by
  rw [natToChars]
  split
  · simp
  · rename_i h
    have : natToRevDigits n ≠ [] := by
      rw [natToRevDigits]; simp [h]
    simpa using this

theorem natToChars_ne_dash (n : Nat) : ∀ c ∈ natToChars n, c ≠ '-' := by
  intro c hc
  rw [natToChars] at hc
  split at hc
  · simp at hc
    subst hc
    decide
  · rcases List.mem_map.mp hc with ⟨d, hd, rfl⟩
    exact digitChar_ne_dash d (mem_natToRevDigits_lt n d (List.mem_reverse.mp hd))

theorem dateOfIso_isoOfDate (t : Int) : dateOfIso (isoOfDate t) = t := by
  rw [isoOfDate]
  split
  · rename_i h
    simp [dateOfIso, parseNatChars_natToChars, abs_of_neg h]
  · rename_i h
    obtain ⟨c, cs, hcs⟩ := List.exists_cons_of_ne_nil (natToChars_ne_nil t.natAbs)
    have hc : c ≠ '-' :=
      natToChars_ne_dash t.natAbs c (hcs ▸ List.mem_cons_self c cs)
    rw [show String.mk (natToChars t.natAbs) = ⟨c :: cs⟩ by rw [hcs]]
    show (if c = '-' then -(parseNatChars cs : Int)
      else (parseNatChars (c :: cs) : Int)) = t
    rw [if_neg hc, ← hcs, parseNatChars_natToChars]
    omega

theorem decodeRecord_encodeRecord (r : AttendanceRecord) :
    decodeRecord (encodeRecord r) = r := by
  cases r
  simp [encodeRecord, decodeRecord, dateOfIso_isoOfDate]

theorem decodeProfile_encodeProfile (p : AttendeeProfile) :
    decodeProfile (encodeProfile p) = p := by
  cases p with
  | mk id name email lastImage imageFeatures faceDescriptor
      currentStatus lastEntry lastExit =>
    cases lastEntry <;> cases lastExit <;>
      simp [encodeProfile, decodeProfile, dateOfIso_isoOfDate]

/-! ## Claims -/

/-- C7: serializing records and profiles to the durable blob (vectors as
plain numeric arrays, `Date` timestamps as ISO strings) and decoding
the blob back reproduces an equal collection: every vector and every
timestamp survives the round-trip unchanged. -/
theorem spec_c7_round_trip (rs : List AttendanceRecord)
    (ps : List AttendeeProfile) :
    (rs.map encodeRecord).map decodeRecord = rs ∧
      (ps.map encodeProfile).map decodeProfile = ps := by
  constructor
  · rw [List.map_map]
    simpa [Function.comp] using
      List.map_congr_left (fun r _ => decodeRecord_encodeRecord r) |>.trans
        (List.map_id rs)
  · rw [List.map_map]
    simpa [Function.comp] using
      List.map_congr_left (fun p _ => decodeProfile_encodeProfile p) |>.trans
        (List.map_id ps)

/-- C8: initializing the store never propagates an error (`initStore`
is total and absorbs parse failures), and loading from corrupt or
missing blobs yields `records = []` and `profiles = []`. -/
theorem spec_c8_corruption_resilience
    (rb : Option (Except Unit (List StoredRecord)))
    (pb : Option (Except Unit (List StoredProfile)))
    (hr : rb = none ∨ rb = some (.error ()))
    (hp : pb = none ∨ pb = some (.error ())) :
    initStore rb pb = ([], []) := by
  rcases hr with rfl | rfl <;> rcases hp with rfl | rfl <;> rfl

/-- Witness for C8 at concrete blobs: a records blob that is non-JSON
text and a missing profiles blob degrade to the empty collections. -/
theorem spec_c8_corruption_resilience_witness :
    ((some (.error ()) : Option (Except Unit (List StoredRecord))) = none ∨
      (some (.error ()) : Option (Except Unit (List StoredRecord))) =
        some (.error ())) ∧
    ((none : Option (Except Unit (List StoredProfile))) = none ∨
      (none : Option (Except Unit (List StoredProfile))) = some (.error ())) ∧
    initStore (some (.error ())) none = ([], []) :=
  ⟨Or.inr rfl, Or.inl rfl,
    spec_c8_corruption_resilience (some (.error ())) none (Or.inr rfl)
      (Or.inl rfl)⟩

/-! ## Helper lemmas: store operations -/

theorem replaceFirst_split (patch : ProfilePatch) :
    ∀ (l : List AttendeeProfile) (p : AttendeeProfile),
      l.find? (fun q => q.id = patch.id) = some p →
      ∃ pre post, l = pre ++ p :: post ∧
        replaceFirst patch l = pre ++ applyPatch p patch :: post := by
  intro l
  induction l with
  | nil => intro p h; simp at h
  | cons a t ih =>
    intro p h
    by_cases ha : a.id = patch.id
    · rw [List.find?_cons_of_pos _ (by simpa using ha)] at h
      cases h
      exact ⟨[], t, by simp, by simp [replaceFirst, ha]⟩
    · rw [List.find?_cons_of_neg _ (by simpa using ha)] at h
      obtain ⟨pre, post, hl, hr⟩ := ih p h
      exact ⟨a :: pre, post, by simp [hl], by simp [replaceFirst, ha, hr]⟩

theorem updateProfile_of_found (profiles : List AttendeeProfile)
    (patch : ProfilePatch) (p : AttendeeProfile)
    (h : profiles.find? (fun q => q.id = patch.id) = some p) :
    updateProfile profiles patch = replaceFirst patch profiles := by
  rw [updateProfile, if_pos]
  have hmem : p ∈ profiles := List.mem_of_find?_eq_some h
  have hpx := @List.find?_some _ _ _ _ h
  exact List.any_eq_true.mpr ⟨p, hmem, hpx⟩

theorem updateProfile_of_missing (profiles : List AttendeeProfile)
    (patch : ProfilePatch)
    (h : profiles.find? (fun q => q.id = patch.id) = none) :
    updateProfile profiles patch = profiles ++ [newProfileOf patch] := by
  rw [updateProfile, if_neg]
  intro hany
  obtain ⟨x, hx, hpx⟩ := List.any_eq_true.mp hany
  exact absurd hpx (by simpa using List.find?_eq_none.mp h x hx)

/-- C5: `updateProfile` merges supplied fields over the first existing
profile with the patch's id (absent fields keep the existing values),
and otherwise appends a new profile built from the defaults
`name="", email="", lastImage="", currentStatus=OUT` overlaid with the
supplied fields. -/
theorem spec_c5_updateProfile (profiles : List AttendeeProfile)
    (patch : ProfilePatch) :
    (∀ p, profiles.find? (fun q => q.id = patch.id) = some p →
      ∃ pre post, profiles = pre ++ p :: post ∧
        updateProfile profiles patch = pre ++
          ⟨patch.id, patch.name.getD p.name, patch.email.getD p.email,
            patch.lastImage.getD p.lastImage,
            patch.imageFeatures.or p.imageFeatures,
            patch.faceDescriptor.or p.faceDescriptor,
            patch.currentStatus.getD p.currentStatus,
            patch.lastEntry.or p.lastEntry,
            patch.lastExit.or p.lastExit⟩ :: post) ∧
    (profiles.find? (fun q => q.id = patch.id) = none →
      updateProfile profiles patch = profiles ++
        [⟨patch.id, patch.name.getD "", patch.email.getD "",
          patch.lastImage.getD "", patch.imageFeatures, patch.faceDescriptor,
          patch.currentStatus.getD PresenceStatus.OUT,
          patch.lastEntry, patch.lastExit⟩]) := by
  constructor
  · intro p h
    obtain ⟨pre, post, hl, hr⟩ := replaceFirst_split patch profiles p h
    exact ⟨pre, post, hl, by rw [updateProfile_of_found profiles patch p h, hr]; rfl⟩
  · intro h
    rw [updateProfile_of_missing profiles patch h]
    rfl

/-- Witness for C5 at a concrete store: one existing profile with the
patch's id is merged in place, and on a store without the id the
profile is created from the defaults. -/
theorem spec_c5_updateProfile_witness :
    (∀ p, [(⟨"a", "Ann", "ann@x.com", "i0", none, none,
        PresenceStatus.IN, some 5, none⟩ : AttendeeProfile)].find?
        (fun q => q.id = ProfilePatch.id ⟨"a", some "Ann2", none, none,
          none, none, some PresenceStatus.OUT, none, some 9⟩) = some p →
      ∃ pre post,
        [(⟨"a", "Ann", "ann@x.com", "i0", none, none,
          PresenceStatus.IN, some 5, none⟩ : AttendeeProfile)] =
            pre ++ p :: post ∧
        updateProfile
          [⟨"a", "Ann", "ann@x.com", "i0", none, none,
            PresenceStatus.IN, some 5, none⟩]
          ⟨"a", some "Ann2", none, none, none, none,
            some PresenceStatus.OUT, none, some 9⟩ = pre ++
          ⟨"a", (some "Ann2").getD p.name, (none : Option String).getD p.email,
            (none : Option String).getD p.lastImage,
            (none : Option (List ℚ)).or p.imageFeatures,
            (none : Option (List ℚ)).or p.faceDescriptor,
            (some PresenceStatus.OUT).getD p.currentStatus,
            (none : Option Int).or p.lastEntry,
            (some (9 : Int)).or p.lastExit⟩ :: post) ∧
    ([(⟨"a", "Ann", "ann@x.com", "i0", none, none,
        PresenceStatus.IN, some 5, none⟩ : AttendeeProfile)].find?
        (fun q => q.id = ProfilePatch.id ⟨"a", some "Ann2", none, none,
          none, none, some PresenceStatus.OUT, none, some 9⟩) = none →
      updateProfile
        [⟨"a", "Ann", "ann@x.com", "i0", none, none,
          PresenceStatus.IN, some 5, none⟩]
        ⟨"a", some "Ann2", none, none, none, none,
          some PresenceStatus.OUT, none, some 9⟩ =
        [⟨"a", "Ann", "ann@x.com", "i0", none, none,
          PresenceStatus.IN, some 5, none⟩] ++
        [⟨"a", (some "Ann2").getD "", (none : Option String).getD "",
          (none : Option String).getD "", none, none,
          (some PresenceStatus.OUT).getD PresenceStatus.OUT,
          none, some 9⟩]) :=
  spec_c5_updateProfile
    [⟨"a", "Ann", "ann@x.com", "i0", none, none,
      PresenceStatus.IN, some 5, none⟩]
    ⟨"a", some "Ann2", none, none, none, none,
      some PresenceStatus.OUT, none, some 9⟩

theorem insertAll_eq (inputs : List (RecordInput × String × Int)) :
    ∀ records, insertAll inputs records = (inputs.map recordOf).reverse ++ records := by
  induction inputs with
  | nil => intro records; rfl
  | cons t ts ih =>
    intro records
    show insertAll ts (recordOf t :: records) = _
    rw [ih]
    simp

/-- C6: `addRecord` builds the record from the fresh id and the current
timestamp and prepends it (index 0 is the most recent record, and a
fresh id keeps the ids distinct); consequently, after inserting the
`inputs` sequence into an empty store, `getRecentRecords k` returns
exactly the last `k` inserted records, most-recent first, for every
`k ≤ N`. -/
theorem spec_c6_record_ordering (input : RecordInput) (freshId : String)
    (now : Int) (records : List AttendanceRecord)
    (inputs : List (RecordInput × String × Int)) (k : Nat)
    (hfresh : freshId ∉ records.map (fun r => r.id))
    (hnodup : (records.map (fun r => r.id)).Nodup)
    (hk : k ≤ inputs.length) :
    (addRecord input freshId now records).2 =
      (addRecord input freshId now records).1 :: records ∧
    (addRecord input freshId now records).1.id = freshId ∧
    (addRecord input freshId now records).1.timestamp = now ∧
    ((addRecord input freshId now records).2.map (fun r => r.id)).Nodup ∧
    getRecentRecords k (insertAll inputs []) =
      ((inputs.drop (inputs.length - k)).map recordOf).reverse := by
  refine ⟨rfl, rfl, rfl, ?_, ?_⟩
  · simp only [addRecord, List.map_cons, List.nodup_cons]
    exact ⟨by simpa using hfresh, hnodup⟩
  · rw [insertAll_eq, List.append_nil, getRecentRecords, List.take_reverse,
      ← List.map_drop, List.length_map]

/-- Witness for C6: three concrete insertions into an empty store;
`getRecentRecords 2` returns the last two inserted records, most-recent
first. -/
theorem spec_c6_record_ordering_witness :
    ("r9" ∉ ([⟨"r0", "Old", "o@x", "i", 0, EntryType.ENTRY, none, none⟩] :
        List AttendanceRecord).map (fun r => r.id)) ∧
    ((([⟨"r0", "Old", "o@x", "i", 0, EntryType.ENTRY, none, none⟩] :
        List AttendanceRecord).map (fun r => r.id)).Nodup) ∧
    (2 ≤ ([(⟨"A", "a@x", "i1", EntryType.ENTRY, none, none⟩, "r1", (1 : Int)),
      (⟨"B", "b@x", "i2", EntryType.EXIT, none, none⟩, "r2", 2),
      (⟨"C", "c@x", "i3", EntryType.ENTRY, none, none⟩, "r3", 3)] :
        List (RecordInput × String × Int)).length) ∧
    getRecentRecords 2 (insertAll
      [(⟨"A", "a@x", "i1", EntryType.ENTRY, none, none⟩, "r1", 1),
        (⟨"B", "b@x", "i2", EntryType.EXIT, none, none⟩, "r2", 2),
        (⟨"C", "c@x", "i3", EntryType.ENTRY, none, none⟩, "r3", 3)] []) =
      ((([(⟨"A", "a@x", "i1", EntryType.ENTRY, none, none⟩, "r1", (1 : Int)),
        (⟨"B", "b@x", "i2", EntryType.EXIT, none, none⟩, "r2", 2),
        (⟨"C", "c@x", "i3", EntryType.ENTRY, none, none⟩, "r3", 3)] :
          List (RecordInput × String × Int)).drop (3 - 2)).map recordOf).reverse :=
  ⟨by decide, by decide, by decide,
    (spec_c6_record_ordering ⟨"A", "a@x", "i1", EntryType.ENTRY, none, none⟩
      "r9" 7 [⟨"r0", "Old", "o@x", "i", 0, EntryType.ENTRY, none, none⟩]
      [(⟨"A", "a@x", "i1", EntryType.ENTRY, none, none⟩, "r1", 1),
        (⟨"B", "b@x", "i2", EntryType.EXIT, none, none⟩, "r2", 2),
        (⟨"C", "c@x", "i3", EntryType.ENTRY, none, none⟩, "r3", 3)] 2
      (by decide) (by decide) (by decide)).2.2.2.2⟩

theorem find?_first_of_sorted {p : AttendanceRecord → Bool}
    {l : List AttendanceRecord} {r : AttendanceRecord}
    (hsort : l.Pairwise (fun a b => b.timestamp ≤ a.timestamp))
    (hf : l.find? p = some r) :
    ∀ s ∈ l, p s = true → s.timestamp ≤ r.timestamp := by
  induction l with
  | nil => simp at hf
  | cons a t ih =>
    intro s hs hps
    by_cases hpa : p a = true
    · rw [List.find?_cons_of_pos _ hpa] at hf
      cases hf
      rcases List.mem_cons.mp hs with rfl | hst
      · exact le_refl _
      · exact (List.pairwise_cons.mp hsort).1 s hst
    · rw [List.find?_cons_of_neg _ hpa] at hf
      rcases List.mem_cons.mp hs with rfl | hst
      · exact absurd hps hpa
      · exact ih (List.pairwise_cons.mp hsort).2 hf s hst hps

/-- C3: for a record list ordered newest first, `getTodayEntryRecord`
returns the most recent record of the given attendee with type ENTRY
whose timestamp falls on the current calendar day, and `none` exactly
when no such record exists. -/
theorem spec_c3_today_entry (attendee : AttendanceRecord → String)
    (dayOf : Int → Int) (today : Int) (records : List AttendanceRecord)
    (attendeeId : String)
    (hsort : records.Pairwise (fun a b => b.timestamp ≤ a.timestamp)) :
    (∀ r, getTodayEntryRecord attendee dayOf today records attendeeId = some r →
      r ∈ records ∧ attendee r = attendeeId ∧ r.type = EntryType.ENTRY ∧
        dayOf r.timestamp = dayOf today ∧
        ∀ s ∈ records, attendee s = attendeeId → s.type = EntryType.ENTRY →
          dayOf s.timestamp = dayOf today → s.timestamp ≤ r.timestamp) ∧
    (getTodayEntryRecord attendee dayOf today records attendeeId = none →
      ∀ s ∈ records, ¬(attendee s = attendeeId ∧ s.type = EntryType.ENTRY ∧
        dayOf s.timestamp = dayOf today)) := by
  constructor
  · intro r hr
    have hmem : r ∈ records := List.mem_of_find?_eq_some hr
    have hpr := @List.find?_some _ _ _ _ hr
    simp only [decide_eq_true_eq] at hpr
    refine ⟨hmem, hpr.1, hpr.2.1, hpr.2.2, ?_⟩
    intro s hs h1 h2 h3
    exact find?_first_of_sorted hsort hr s hs (by simp [h1, h2, h3])
  · intro hn s hs hprop
    have := List.find?_eq_none.mp hn s hs
    simp only [decide_eq_true_eq] at this
    exact this hprop

/-- Witness for C3: a concrete newest-first list containing an older
ENTRY of the same attendee on the same day; the returned record is the
most recent matching one. -/
theorem spec_c3_today_entry_witness :
    (([⟨"r3", "Ann", "ann@x", "i3", 30, EntryType.EXIT, none, none⟩,
      ⟨"r2", "Ann", "ann@x", "i2", 20, EntryType.ENTRY, none, none⟩,
      ⟨"r1", "Ann", "ann@x", "i1", 10, EntryType.ENTRY, none, none⟩] :
        List AttendanceRecord).Pairwise
      (fun a b => b.timestamp ≤ a.timestamp)) ∧
    (∀ r, getTodayEntryRecord (fun r => r.email) (fun t => t / 100) 45
      [⟨"r3", "Ann", "ann@x", "i3", 30, EntryType.EXIT, none, none⟩,
        ⟨"r2", "Ann", "ann@x", "i2", 20, EntryType.ENTRY, none, none⟩,
        ⟨"r1", "Ann", "ann@x", "i1", 10, EntryType.ENTRY, none, none⟩]
      "ann@x" = some r →
      r ∈ [⟨"r3", "Ann", "ann@x", "i3", 30, EntryType.EXIT, none, none⟩,
        ⟨"r2", "Ann", "ann@x", "i2", 20, EntryType.ENTRY, none, none⟩,
        ⟨"r1", "Ann", "ann@x", "i1", 10, EntryType.ENTRY, none, none⟩] ∧
      r.email = "ann@x" ∧ r.type = EntryType.ENTRY ∧
      r.timestamp / 100 = (45 : Int) / 100 ∧
      ∀ s ∈ ([⟨"r3", "Ann", "ann@x", "i3", 30, EntryType.EXIT, none, none⟩,
        ⟨"r2", "Ann", "ann@x", "i2", 20, EntryType.ENTRY, none, none⟩,
        ⟨"r1", "Ann", "ann@x", "i1", 10, EntryType.ENTRY, none, none⟩] :
          List AttendanceRecord), s.email = "ann@x" →
        s.type = EntryType.ENTRY → s.timestamp / 100 = (45 : Int) / 100 →
        s.timestamp ≤ r.timestamp) :=
  ⟨by decide,
    (spec_c3_today_entry (fun r => r.email) (fun t => t / 100) 45
      [⟨"r3", "Ann", "ann@x", "i3", 30, EntryType.EXIT, none, none⟩,
        ⟨"r2", "Ann", "ann@x", "i2", 20, EntryType.ENTRY, none, none⟩,
        ⟨"r1", "Ann", "ann@x", "i1", 10, EntryType.ENTRY, none, none⟩]
      "ann@x" (by decide)).1⟩

/-! ## Helper lemmas: the matcher scan -/

theorem scanBest_step_snd {α : Type} [LinearOrderedField α]
    (b : String × α) (id : String) (c : α) :
    (if b.2 < c then (id, c) else b).2 = max b.2 c := by
  split
  · exact (max_eq_right (le_of_lt (by assumption))).symm
  · exact (max_eq_left (not_lt.mp (by assumption))).symm

theorem scanBest_foldl_snd {α : Type} [LinearOrderedField α]
    (conf : List ℚ → List ℚ → α) (q : List ℚ) :
    ∀ (cat : List (String × List ℚ)) (b : String × α),
      (cat.foldl
        (fun best e => if best.2 < conf q e.2 then (e.1, conf q e.2) else best)
        b).2 = (cat.map (fun e => conf q e.2)).foldl max b.2 := by
  intro cat
  induction cat with
  | nil => intro b; rfl
  | cons e t ih =>
    intro b
    simp only [List.foldl_cons, List.map_cons]
    rw [ih, scanBest_step_snd]

theorem scanBest_snd {α : Type} [LinearOrderedField α]
    (conf : List ℚ → List ℚ → α) (q : List ℚ)
    (cat : List (String × List ℚ)) :
    (scanBest conf q cat).2 = maxConfidence conf q cat :=
  scanBest_foldl_snd conf q cat ("", 0)

theorem scanBest_provenance {α : Type} [LinearOrderedField α]
    (conf : List ℚ → List ℚ → α) (q : List ℚ) :
    ∀ (cat : List (String × List ℚ)) (b : String × α),
      cat.foldl
        (fun best e => if best.2 < conf q e.2 then (e.1, conf q e.2) else best)
        b = b ∨
      ∃ e ∈ cat, cat.foldl
        (fun best e => if best.2 < conf q e.2 then (e.1, conf q e.2) else best)
        b = (e.1, conf q e.2) := by
  intro cat
  induction cat with
  | nil => intro b; exact Or.inl rfl
  | cons e t ih =>
    intro b
    simp only [List.foldl_cons]
    rcases ih (if b.2 < conf q e.2 then (e.1, conf q e.2) else b) with h | ⟨f, hf, h⟩
    · rw [h]
      split
      · exact Or.inr ⟨e, List.mem_cons_self e t, rfl⟩
      · exact Or.inl rfl
    · exact Or.inr ⟨f, List.mem_cons_of_mem e hf, h⟩

theorem scanBest_cases {α : Type} [LinearOrderedField α]
    (conf : List ℚ → List ℚ → α) (q : List ℚ)
    (cat : List (String × List ℚ)) :
    scanBest conf q cat = ("", 0) ∨
      ∃ e ∈ cat, scanBest conf q cat = (e.1, conf q e.2) :=
  scanBest_provenance conf q cat ("", 0)

/-- C2: for every query vector and catalog, the loaded matchers report
`isMatch` exactly when the maximum pairwise confidence strictly exceeds
the threshold (0.6 for the face matcher, 0.75 for the embedding
matcher) — equality with the threshold is not a match — and an absent
query vector or an empty catalog yields `{isMatch: false, confidence: 0}`. -/
theorem spec_c2_matcher_threshold (dist : List ℚ → List ℚ → ℚ)
    (q : List ℚ) (cat : List (String × List ℚ)) :
    ((findMatchingFace true dist (some q) cat).isMatch = true ↔
      (6 : ℚ)/10 < maxConfidence (compareFaces dist) q cat) ∧
    ((findMatchingImage true (some q) cat).isMatch = true ↔
      (3 : ℝ)/4 <
        maxConfidence (fun a b => compareImages (some a) (some b)) q cat) ∧
    findMatchingFace true dist none cat = ⟨false, 0, none⟩ ∧
    findMatchingImage true none cat = ⟨false, 0, none⟩ ∧
    findMatchingFace true dist (some q) [] = ⟨false, 0, none⟩ ∧
    findMatchingImage true (some q) [] = ⟨false, 0, none⟩ := by
  refine ⟨?_, ?_, rfl, rfl, ?_, ?_⟩
  · simp [findMatchingFace, scanBest_snd]
  · simp [findMatchingImage, scanBest_snd]
  · simp [findMatchingFace, scanBest]
    norm_num
  · simp [findMatchingImage, scanBest]
    norm_num

/-- Witness for C2 at a concrete query and catalog (the theorem has no
hypotheses; this instantiates it). -/
theorem spec_c2_matcher_threshold_witness :
    ((findMatchingFace true (fun _ _ => (1 : ℚ)/5) (some [1])
        [("a", [1])]).isMatch = true ↔
      (6 : ℚ)/10 <
        maxConfidence (compareFaces (fun _ _ => (1 : ℚ)/5)) [1] [("a", [1])]) ∧
    ((findMatchingImage true (some [1]) [("a", [1])]).isMatch = true ↔
      (3 : ℝ)/4 <
        maxConfidence (fun a b => compareImages (some a) (some b)) [1]
          [("a", [1])]) ∧
    findMatchingFace true (fun _ _ => (1 : ℚ)/5) none [("a", [1])] =
      ⟨false, 0, none⟩ ∧
    findMatchingImage true none [("a", [1])] = ⟨false, 0, none⟩ ∧
    findMatchingFace true (fun _ _ => (1 : ℚ)/5) (some [1]) [] =
      ⟨false, 0, none⟩ ∧
    findMatchingImage true (some [1]) [] = ⟨false, 0, none⟩ :=
  spec_c2_matcher_threshold (fun _ _ => (1 : ℚ)/5) [1] [("a", [1])]

/-- C10: for both matchers, `attendeeId` is defined exactly when
`isMatch` is true, and when defined it is the id of a catalog entry
whose pairwise confidence equals the reported confidence. -/
theorem spec_c10_match_id_integrity (loaded : Bool)
    (dist : List ℚ → List ℚ → ℚ) (oq : Option (List ℚ))
    (cat : List (String × List ℚ)) :
    ((findMatchingFace loaded dist oq cat).attendeeId.isSome =
      (findMatchingFace loaded dist oq cat).isMatch) ∧
    (∀ uid, (findMatchingFace loaded dist oq cat).attendeeId = some uid →
      ∃ q v, oq = some q ∧ (uid, v) ∈ cat ∧
        compareFaces dist q v =
          (findMatchingFace loaded dist oq cat).confidence) ∧
    ((findMatchingImage loaded oq cat).attendeeId.isSome =
      (findMatchingImage loaded oq cat).isMatch) ∧
    (∀ uid, (findMatchingImage loaded oq cat).attendeeId = some uid →
      ∃ q v, oq = some q ∧ (uid, v) ∈ cat ∧
        compareImages (some q) (some v) =
          (findMatchingImage loaded oq cat).confidence) := by
  cases oq with
  | none =>
    cases loaded <;>
      exact ⟨rfl, fun uid h => by simp [findMatchingFace] at h, rfl,
        fun uid h => by simp [findMatchingImage] at h⟩
  | some q =>
    cases loaded with
    | false =>
      exact ⟨rfl, fun uid h => by simp [findMatchingFace] at h, rfl,
        fun uid h => by simp [findMatchingImage] at h⟩
    | true =>
      refine ⟨?_, ?_, ?_, ?_⟩
      · by_cases h : (6 : ℚ)/10 < (scanBest (compareFaces dist) q cat).2 <;>
          simp [findMatchingFace, h]
      · intro uid huid
        by_cases h : (6 : ℚ)/10 < (scanBest (compareFaces dist) q cat).2
        · simp only [findMatchingFace, if_neg (by simp : ¬(true = false)),
            if_pos h, Option.some.injEq] at huid
          rcases scanBest_cases (compareFaces dist) q cat with hz | ⟨e, he, heq⟩
          · rw [hz] at h
            norm_num at h
          · refine ⟨q, e.2, rfl, ?_, ?_⟩
            · rw [← huid]
              rw [heq]
              exact he
            · simp [findMatchingFace, heq]
        · simp [findMatchingFace, h] at huid
      · by_cases h : (3 : ℝ)/4 <
          (scanBest (fun a b => compareImages (some a) (some b)) q cat).2 <;>
          simp [findMatchingImage, h]
      · intro uid huid
        by_cases h : (3 : ℝ)/4 <
          (scanBest (fun a b => compareImages (some a) (some b)) q cat).2
        · simp only [findMatchingImage, if_neg (by simp : ¬(true = false)),
            if_pos h, Option.some.injEq] at huid
          rcases scanBest_cases (fun a b => compareImages (some a) (some b))
            q cat with hz | ⟨e, he, heq⟩
          · rw [hz] at h
            norm_num at h
          · refine ⟨q, e.2, rfl, ?_, ?_⟩
            · rw [← huid]
              rw [heq]
              exact he
            · simp [findMatchingImage, heq]
        · simp [findMatchingImage, h] at huid

/-- Witness for C10 at a concrete matcher call (the theorem has no
hypotheses; this instantiates it). -/
theorem spec_c10_match_id_integrity_witness :
    ((findMatchingFace true (fun _ _ => (0 : ℚ)) (some [1])
        [("a", [1])]).attendeeId.isSome =
      (findMatchingFace true (fun _ _ => (0 : ℚ)) (some [1])
        [("a", [1])]).isMatch) ∧
    (∀ uid, (findMatchingFace true (fun _ _ => (0 : ℚ)) (some [1])
        [("a", [1])]).attendeeId = some uid →
      ∃ q v, (some [1] : Option (List ℚ)) = some q ∧ (uid, v) ∈ [("a", [1])] ∧
        compareFaces (fun _ _ => (0 : ℚ)) q v =
          (findMatchingFace true (fun _ _ => (0 : ℚ)) (some [1])
            [("a", [1])]).confidence) ∧
    ((findMatchingImage true (some [1]) [("a", [1])]).attendeeId.isSome =
      (findMatchingImage true (some [1]) [("a", [1])]).isMatch) ∧
    (∀ uid, (findMatchingImage true (some [1]) [("a", [1])]).attendeeId =
        some uid →
      ∃ q v, (some [1] : Option (List ℚ)) = some q ∧ (uid, v) ∈ [("a", [1])] ∧
        compareImages (some q) (some v) =
          (findMatchingImage true (some [1]) [("a", [1])]).confidence) :=
  spec_c10_match_id_integrity true (fun _ _ => (0 : ℚ)) (some [1]) [("a", [1])]

/-! ## Helper lemmas: cosine confidence bounds -/

theorem normSq_nonneg (l : List ℚ) : 0 ≤ normSq l := by
  refine List.sum_nonneg ?_
  intro x hx
  rcases List.mem_map.mp hx with ⟨y, hy, rfl⟩
  exact mul_self_nonneg y

theorem cauchy_schwarz_step (x y p q d : ℚ) (hp : 0 ≤ p) (hq : 0 ≤ q)
    (ih : d ^ 2 ≤ p * q) :
    (x * y + d) ^ 2 ≤ (x * x + p) * (y * y + q) := by
  rcases eq_or_lt_of_le hq with hq0 | hqpos
  · have hd : d = 0 := by nlinarith [sq_nonneg d]
    subst hd
    nlinarith [mul_nonneg hp (sq_nonneg y)]
  · have key : q * ((x * x + p) * (y * y + q) - (x * y + d) ^ 2) =
        (x * q - y * d) ^ 2 + (y * y + q) * (p * q - d ^ 2) := by
      ring
    have h1 : 0 ≤ q * ((x * x + p) * (y * y + q) - (x * y + d) ^ 2) := by
      rw [key]
      have hor := mul_nonneg (by nlinarith [sq_nonneg y] :
        (0 : ℚ) ≤ y * y + q) (by linarith : (0 : ℚ) ≤ p * q - d ^ 2)
      exact add_nonneg (sq_nonneg _) hor
    nlinarith [h1, hqpos]

theorem dotProd_sq_le (a : List ℚ) :
    ∀ b, (dotProd a b) ^ 2 ≤ normSq a * normSq b := by
  induction a with
  | nil =>
    intro b
    show (dotProd [] b) ^ 2 ≤ normSq [] * normSq b
    simp [dotProd, normSq]
  | cons x xs ih =>
    intro b
    cases b with
    | nil => simp [dotProd, normSq]
    | cons y ys =>
      have hstep := cauchy_schwarz_step x y (normSq xs) (normSq ys)
        (dotProd xs ys) (normSq_nonneg xs) (normSq_nonneg ys) (ih ys)
      simpa [dotProd, normSq, mul_comm, mul_left_comm, mul_assoc,
        add_comm, add_left_comm, add_assoc] using hstep

theorem cosineSimilarity_le_one (a b : List ℚ) : cosineSimilarity a b ≤ 1 := by
  rw [cosineSimilarity]
  rcases eq_or_lt_of_le (mul_nonneg (Real.sqrt_nonneg (normSq a : ℝ))
    (Real.sqrt_nonneg (normSq b : ℝ))) with hz | hpos
  · rw [← hz, div_zero]
    norm_num
  · rw [div_le_one hpos]
    have h1 : ((dotProd a b : ℚ) : ℝ) ≤ |((dotProd a b : ℚ) : ℝ)| :=
      le_abs_self _
    have h2 : |((dotProd a b : ℚ) : ℝ)| =
        Real.sqrt (((dotProd a b : ℚ) : ℝ) ^ 2) :=
      (Real.sqrt_sq_eq_abs _).symm
    have h3 : (((dotProd a b : ℚ) : ℝ) ^ 2) ≤
        ((normSq a : ℚ) : ℝ) * ((normSq b : ℚ) : ℝ) := by
      exact_mod_cast dotProd_sq_le a b
    calc ((dotProd a b : ℚ) : ℝ)
        ≤ Real.sqrt (((dotProd a b : ℚ) : ℝ) ^ 2) := by rw [← h2]; exact h1
      _ ≤ Real.sqrt (((normSq a : ℚ) : ℝ) * ((normSq b : ℚ) : ℝ)) :=
          Real.sqrt_le_sqrt h3
      _ = Real.sqrt (normSq a : ℝ) * Real.sqrt (normSq b : ℝ) :=
          Real.sqrt_mul (by exact_mod_cast normSq_nonneg a) _

/-- Counterexample to C9 as stated: for the equal-length zero-norm
pair `[0]`, `[0]` the source computes `0/0 = NaN` and returns
`Math.max(0, (NaN + 1) / 2) = NaN` — no value in `[0, 1]` is
returned. -/
theorem spec_c9_nan_counterexample :
    ([0] : List ℚ).length = ([0] : List ℚ).length ∧
    compareImagesNaN (some [0]) (some [0]) = none := by
  refine ⟨rfl, ?_⟩
  have hz : normSq ([0] : List ℚ) = 0 := by simp [normSq]
  simp [compareImagesNaN, hz]

/-- C9 (amended): the cosine-based confidence equals
`max(0, (cosineSimilarity(a,b) + 1) / 2)` when the lengths agree and
neither vector has zero norm; it is NaN when the lengths agree and
either vector has zero norm; it equals 0 when the lengths differ or
either vector is absent; and whenever a number is returned it is a
value in `[0, 1]`. -/
theorem spec_c9_amended_cosine_confidence (oa ob : Option (List ℚ)) :
    (∀ a b, oa = some a → ob = some b → a.length = b.length →
      ¬(normSq a = 0 ∨ normSq b = 0) →
      compareImagesNaN oa ob =
        some (max 0 ((cosineSimilarity a b + 1) / 2))) ∧
    (∀ a b, oa = some a → ob = some b → a.length = b.length →
      (normSq a = 0 ∨ normSq b = 0) → compareImagesNaN oa ob = none) ∧
    (∀ a b, oa = some a → ob = some b → a.length ≠ b.length →
      compareImagesNaN oa ob = some 0) ∧
    (oa = none ∨ ob = none → compareImagesNaN oa ob = some 0) ∧
    (∀ x : ℝ, compareImagesNaN oa ob = some x → 0 ≤ x ∧ x ≤ 1) := by
  have hzero : (0 : ℝ) ≤ 0 ∧ (0 : ℝ) ≤ 1 := ⟨le_refl 0, by norm_num⟩
  cases oa with
  | none =>
    refine ⟨fun a b h => by simp at h, fun a b h => by simp at h,
      fun a b h => by simp at h, fun _ => rfl, ?_⟩
    intro x hx
    rw [show compareImagesNaN none ob = some 0 from rfl] at hx
    cases hx
    exact hzero
  | some a =>
    cases ob with
    | none =>
      refine ⟨fun u v _ h => by simp at h, fun u v _ h => by simp at h,
        fun u v _ h => by simp at h, fun _ => rfl, ?_⟩
      intro x hx
      rw [show compareImagesNaN (some a) none = some 0 from rfl] at hx
      cases hx
      exact hzero
    | some b =>
      refine ⟨?_, ?_, ?_, ?_, ?_⟩
      · intro u v hu hv hlen hz
        cases hu; cases hv
        simp [compareImagesNaN, hlen, hz]
      · intro u v hu hv hlen hz
        cases hu; cases hv
        simp [compareImagesNaN, hlen, hz]
      · intro u v hu hv hlen
        cases hu; cases hv
        simp [compareImagesNaN, hlen]
      · intro h
        rcases h with h | h <;> simp at h
      · intro x hx
        by_cases hlen : a.length = b.length
        · by_cases hz : normSq a = 0 ∨ normSq b = 0
          · rw [show compareImagesNaN (some a) (some b) = none by
              simp [compareImagesNaN, hlen, hz]] at hx
            simp at hx
          · rw [show compareImagesNaN (some a) (some b) =
                some (max 0 ((cosineSimilarity a b + 1) / 2)) by
              simp [compareImagesNaN, hlen, hz]] at hx
            cases hx
            refine ⟨le_max_left 0 _, max_le (by norm_num) ?_⟩
            have := cosineSimilarity_le_one a b
            linarith
        · rw [show compareImagesNaN (some a) (some b) = some 0 by
            simp [compareImagesNaN, hlen]] at hx
          cases hx
          exact hzero

/-- Witness for C9's amended theorem at a concrete pair of vectors
(the theorem has no hypotheses; this instantiates it). -/
theorem spec_c9_amended_cosine_confidence_witness :
    (∀ a b, (some [1, 2] : Option (List ℚ)) = some a →
      (some [2, 1] : Option (List ℚ)) = some b → a.length = b.length →
      ¬(normSq a = 0 ∨ normSq b = 0) →
      compareImagesNaN (some [1, 2]) (some [2, 1]) =
        some (max 0 ((cosineSimilarity a b + 1) / 2))) ∧
    (∀ a b, (some [1, 2] : Option (List ℚ)) = some a →
      (some [2, 1] : Option (List ℚ)) = some b → a.length = b.length →
      (normSq a = 0 ∨ normSq b = 0) →
      compareImagesNaN (some [1, 2]) (some [2, 1]) = none) ∧
    (∀ a b, (some [1, 2] : Option (List ℚ)) = some a →
      (some [2, 1] : Option (List ℚ)) = some b → a.length ≠ b.length →
      compareImagesNaN (some [1, 2]) (some [2, 1]) = some 0) ∧
    ((some [1, 2] : Option (List ℚ)) = none ∨
      (some [2, 1] : Option (List ℚ)) = none →
      compareImagesNaN (some [1, 2]) (some [2, 1]) = some 0) ∧
    (∀ x : ℝ, compareImagesNaN (some [1, 2]) (some [2, 1]) = some x →
      0 ≤ x ∧ x ≤ 1) :=
  spec_c9_amended_cosine_confidence (some [1, 2]) (some [2, 1])

/-! ## Helper lemmas: the pipeline -/

theorem processAttendance_known (env : PipelineEnv) (img : String)
    (records : List AttendanceRecord) (profiles : List AttendeeProfile)
    (p : AttendeeProfile)
    (hid : resolveIdentity env img profiles = .matched p ∨
      resolveIdentity env img profiles = .byEmail p) :
    processAttendance env img records profiles =
      processKnown env img records profiles p := by
  rcases hid with h | h <;> simp [processAttendance, h]

/-- C1: when the resolved transition is EXIT for a matched identity and
an ENTRY record for that identity exists today, pixel confidence
strictly below 0.7 rejects the run with no record or profile mutation,
and pixel confidence at least 0.7 accepts the run and appends exactly
one EXIT record. -/
theorem spec_c1_same_day_gate (env : PipelineEnv) (img : String)
    (records : List AttendanceRecord) (profiles : List AttendeeProfile)
    (p : AttendeeProfile) (e : AttendanceRecord)
    (hid : resolveIdentity env img profiles = .matched p ∨
      resolveIdentity env img profiles = .byEmail p)
    (hst : p.currentStatus ≠ PresenceStatus.OUT)
    (hte : getTodayEntryRecord env.attendee env.dayOf env.today records p.id =
      some e) :
    (env.simpleCompare img e.image < mkRat 7 10 →
      processAttendance env img records profiles =
        ⟨.rejected, records, profiles⟩) ∧
    (mkRat 7 10 ≤ env.simpleCompare img e.image →
      ∃ rec, (processAttendance env img records profiles).outcome =
          .accepted rec ∧
        (processAttendance env img records profiles).records =
          rec :: records ∧
        rec.type = EntryType.EXIT) := by
  have het : (if p.currentStatus = PresenceStatus.OUT then EntryType.ENTRY
      else EntryType.EXIT) = EntryType.EXIT := if_neg hst
  rw [processAttendance_known env img records profiles p hid]
  constructor
  · intro hcmp
    simp only [processKnown, het, if_pos, hte]
    rw [if_pos hcmp]
  · intro hcmp
    simp only [processKnown, het, if_pos, hte]
    rw [if_neg (not_lt.mpr hcmp)]
    exact ⟨_, rfl, rfl, rfl⟩

/-- Witness for C1: a profile currently IN reached via the email
fallback, an ENTRY recorded today, and a pixel confidence of 1/2
(< 0.7): the run is rejected and the store is unchanged. -/
theorem spec_c1_same_day_gate_witness :
    (resolveIdentity gateEnv "img" [gateProfile] = .matched gateProfile ∨
      resolveIdentity gateEnv "img" [gateProfile] = .byEmail gateProfile) ∧
    gateProfile.currentStatus ≠ PresenceStatus.OUT ∧
    getTodayEntryRecord gateEnv.attendee gateEnv.dayOf gateEnv.today
      [gateEntry] gateProfile.id = some gateEntry ∧
    ((gateEnv.simpleCompare "img" gateEntry.image < mkRat 7 10 →
      processAttendance gateEnv "img" [gateEntry] [gateProfile] =
        ⟨.rejected, [gateEntry], [gateProfile]⟩) ∧
    (mkRat 7 10 ≤ gateEnv.simpleCompare "img" gateEntry.image →
      ∃ rec, (processAttendance gateEnv "img" [gateEntry]
          [gateProfile]).outcome = .accepted rec ∧
        (processAttendance gateEnv "img" [gateEntry] [gateProfile]).records =
          rec :: [gateEntry] ∧
        rec.type = EntryType.EXIT)) :=
  ⟨Or.inr (by decide), by decide, by decide,
    spec_c1_same_day_gate gateEnv "img" [gateEntry] [gateProfile]
      gateProfile gateEntry (Or.inr (by decide)) (by decide) (by decide)⟩

theorem processKnown_cases (env : PipelineEnv) (img : String)
    (records : List AttendanceRecord) (profiles : List AttendeeProfile)
    (p : AttendeeProfile) :
    processKnown env img records profiles p = ⟨.rejected, records, profiles⟩ ∨
    processKnown env img records profiles p =
      commitRun env img records profiles
        (knownProfileData env img profiles p
          (if p.currentStatus = PresenceStatus.OUT then EntryType.ENTRY
            else EntryType.EXIT))
        (if p.currentStatus = PresenceStatus.OUT then EntryType.ENTRY
          else EntryType.EXIT) := by
  simp only [processKnown]
  split
  · rw [if_neg (by decide : ¬(EntryType.ENTRY = EntryType.EXIT))]
    exact Or.inr rfl
  · rw [if_pos rfl]
    split
    · split
      · exact Or.inl rfl
      · exact Or.inr rfl
    · exact Or.inr rfl

theorem replaceFirst_mem_patched (patch : ProfilePatch) (li : String)
    (c : PresenceStatus) (hli : patch.lastImage = some li)
    (hcs : patch.currentStatus = some c) :
    ∀ l : List AttendeeProfile, (∃ x ∈ l, x.id = patch.id) →
      ∃ q ∈ replaceFirst patch l, q.lastImage = li ∧ q.currentStatus = c := by
  intro l
  induction l with
  | nil => rintro ⟨x, hx, hid⟩; simp at hx
  | cons a t ih =>
    rintro ⟨x, hx, hid⟩
    by_cases ha : a.id = patch.id
    · refine ⟨applyPatch a patch, ?_, ?_, ?_⟩
      · simp [replaceFirst, ha]
      · simp [applyPatch, hli]
      · simp [applyPatch, hcs]
    · rcases List.mem_cons.mp hx with rfl | hxt
      · exact absurd hid ha
      · obtain ⟨q, hq, hq1, hq2⟩ := ih ⟨x, hxt, hid⟩
        refine ⟨q, ?_, hq1, hq2⟩
        simp only [replaceFirst, if_neg ha]
        exact List.mem_cons_of_mem a hq

theorem exists_mem_updateProfile (profiles : List AttendeeProfile)
    (patch : ProfilePatch) (li : String) (c : PresenceStatus)
    (hli : patch.lastImage = some li) (hcs : patch.currentStatus = some c) :
    ∃ q ∈ updateProfile profiles patch,
      q.lastImage = li ∧ q.currentStatus = c := by
  rw [updateProfile]
  split
  · rename_i hany
    obtain ⟨x, hx, hpx⟩ := List.any_eq_true.mp hany
    exact replaceFirst_mem_patched patch li c hli hcs profiles
      ⟨x, hx, by simpa using hpx⟩
  · refine ⟨newProfileOf patch, ?_, ?_, ?_⟩
    · simp
    · simp [newProfileOf, hli]
    · simp [newProfileOf, hcs]

theorem commitRun_shape (env : PipelineEnv) (img : String)
    (records : List AttendanceRecord) (profiles : List AttendeeProfile)
    (pd : AttendeeProfile) (et : EntryType) :
    commitRun env img records profiles pd et =
      ⟨.accepted ⟨env.recordId, pd.name, pd.email, img, env.now, et,
          stageFeats env profiles, pipelineFd env⟩,
        ⟨env.recordId, pd.name, pd.email, img, env.now, et,
          stageFeats env profiles, pipelineFd env⟩ :: records,
        updateProfile profiles (patchOfProfile pd)⟩ :=
  rfl

/-- Counterexample to C4 as stated: a first-enrollment run on an empty
store writes a record whose id is the fresh id drawn by `addRecord`
("u1"), not the id of the profile it creates ("u0"); the two are
distinct fresh UUIDs in the source, so the record does not reference
the profile by id. -/
theorem spec_c4_counterexample :
    (processAttendance gateEnv "img" [] []).records.map (fun r => r.id) =
      ["u1"] ∧
    (processAttendance gateEnv "img" [] []).profiles.map (fun q => q.id) =
      ["u0"] ∧
    ("u1" : String) ≠ "u0" := by
  decide

/-- C4 (amended): the record written by an accepted run carries its own
fresh id (`addRecord`'s id, not the profile's), and the profile the run
writes has `currentStatus = IN` exactly when the appended record has
`type = ENTRY`. -/
theorem spec_c4_amended_status_invariant (env : PipelineEnv) (img : String)
    (records : List AttendanceRecord) (profiles : List AttendeeProfile)
    (rec : AttendanceRecord)
    (hacc : (processAttendance env img records profiles).outcome =
      .accepted rec) :
    rec.id = env.recordId ∧
    (processAttendance env img records profiles).records = rec :: records ∧
    ∃ q ∈ (processAttendance env img records profiles).profiles,
      q.lastImage = img ∧
        (q.currentStatus = PresenceStatus.IN ↔ rec.type = EntryType.ENTRY) := by
  rcases hres : resolveIdentity env img profiles with p | uid | p | _
  case missing =>
    rw [show processAttendance env img records profiles =
      ⟨.crashed, records, profiles⟩ by simp [processAttendance, hres]] at hacc
    simp at hacc
  case matched | byEmail =>
    have heq : processAttendance env img records profiles =
        processKnown env img records profiles p := by
      simp [processAttendance, hres]
    rw [heq] at hacc ⊢
    rcases processKnown_cases env img records profiles p with hcase | hcase
    · rw [hcase] at hacc
      simp at hacc
    · rw [hcase] at hacc ⊢
      rw [commitRun_shape] at hacc ⊢
      simp only [RunOutcome.accepted.injEq] at hacc
      subst hacc
      refine ⟨rfl, rfl, ?_⟩
      obtain ⟨q, hq, h1, h2⟩ := exists_mem_updateProfile profiles
        (patchOfProfile (knownProfileData env img profiles p
          (if p.currentStatus = PresenceStatus.OUT then EntryType.ENTRY
            else EntryType.EXIT))) img
        (knownProfileData env img profiles p
          (if p.currentStatus = PresenceStatus.OUT then EntryType.ENTRY
            else EntryType.EXIT)).currentStatus rfl rfl
      refine ⟨q, hq, h1, ?_⟩
      rw [h2]
      cases hst : p.currentStatus <;> simp [knownProfileData, hst]
  case fresh =>
    have heq : processAttendance env img records profiles =
        commitRun env img records profiles (freshProfileData env img profiles)
          EntryType.ENTRY := by
      simp [processAttendance, hres]
    rw [heq] at hacc ⊢
    rw [commitRun_shape] at hacc ⊢
    simp only [RunOutcome.accepted.injEq] at hacc
    subst hacc
    refine ⟨rfl, rfl, ?_⟩
    obtain ⟨q, hq, h1, h2⟩ := exists_mem_updateProfile profiles
      (patchOfProfile (freshProfileData env img profiles)) img
      PresenceStatus.IN rfl rfl
    exact ⟨q, hq, h1, by simp [h2]⟩

/-- Witness for C4's amended theorem: the concrete first-enrollment run
of the counterexample is accepted, and the invariant holds on it. -/
theorem spec_c4_amended_status_invariant_witness :
    ((processAttendance gateEnv "img" [] []).outcome =
      .accepted ⟨"u1", "Ann", "ann@x", "img", 40, EntryType.ENTRY,
        none, none⟩) ∧
    (⟨"u1", "Ann", "ann@x", "img", 40, EntryType.ENTRY, none,
        none⟩ : AttendanceRecord).id = gateEnv.recordId ∧
    (processAttendance gateEnv "img" [] []).records =
      ⟨"u1", "Ann", "ann@x", "img", 40, EntryType.ENTRY, none, none⟩ :: [] ∧
    ∃ q ∈ (processAttendance gateEnv "img" [] []).profiles,
      q.lastImage = "img" ∧
        (q.currentStatus = PresenceStatus.IN ↔
          (⟨"u1", "Ann", "ann@x", "img", 40, EntryType.ENTRY, none,
            none⟩ : AttendanceRecord).type = EntryType.ENTRY) :=
  ⟨by decide,
    (spec_c4_amended_status_invariant gateEnv "img" [] []
      ⟨"u1", "Ann", "ann@x", "img", 40, EntryType.ENTRY, none, none⟩
      (by decide)).1,
    (spec_c4_amended_status_invariant gateEnv "img" [] []
      ⟨"u1", "Ann", "ann@x", "img", 40, EntryType.ENTRY, none, none⟩
      (by decide)).2.1,
    (spec_c4_amended_status_invariant gateEnv "img" [] []
      ⟨"u1", "Ann", "ann@x", "img", 40, EntryType.ENTRY, none, none⟩
      (by decide)).2.2⟩
